import Mathlib

/-!
Shallow embedding of `pilot/pkg/serviceregistry/external/servicediscovery.go`
(the `ServiceEntryStore` service registry) and verification of the spec's
claims about it.

The Go file's collaborators (`model.Service`, `model.ServiceInstance`,
`networking.ServiceEntry`, the conversion functions and label matching)
live outside the provided source; they are modelled from the spec's
boundary descriptions, each marked `Modelled from the spec:`.
Go maps keyed by strings are modelled as association lists with
unique keys (`mapFind` / `mapInsert`); goroutine dispatch is modelled as
the list of (handler index, entity, event) invocations the code spawns,
and the lock protocol of `update` as an explicit trace of lock operations.
-/

set_option autoImplicit false

namespace IstioSE

/-- Modelled from the spec: a named service port (`model.Port` is outside
the provided source): a name and a port number. -/
structure Port where
  name : String
  port : Int
deriving DecidableEq, Repr

/-- Modelled from the spec: an Endpoint is network address + port
information for an Instance (`model.NetworkEndpoint` is outside the
provided source). -/
structure NetworkEndpoint where
  address : String
  port : Int
  servicePort : Port
deriving DecidableEq, Repr

/-- Modelled from the spec: a Service is a logical, named destination
identified by a unique hostname (`model.Service` is outside the provided
source; only the hostname is consulted by this file). -/
structure Service where
  hostname : String
deriving DecidableEq, Repr

/-- Modelled from the spec: a label set, key to value. Represented as an
association list with the first binding of a key authoritative. -/
abbrev Labels := List (String × String)

/-- Modelled from the spec: an Instance carries an Endpoint, a reference
to its Service, and a label set (`model.ServiceInstance` is outside the
provided source). -/
structure ServiceInstance where
  endpoint : NetworkEndpoint
  service : Service
  labels : Labels
deriving DecidableEq, Repr

/-- Modelled from the spec: service attributes are a name and a namespace
(`model.ServiceAttributes` is outside the provided source). -/
structure ServiceAttributes where
  name : String
  ns : String
deriving DecidableEq, Repr

/-- Modelled from the spec: the Conversion Boundary is a pure, deterministic
function from a raw record to services and instances (`convertServices` /
`convertInstances` are outside the provided source). A raw
`networking.ServiceEntry` record is therefore represented directly by its
conversion outputs. -/
structure ServiceEntry where
  services : List Service
  instances : List ServiceInstance
deriving DecidableEq, Repr

/-- Conversion Boundary: `toServices(rawRecord)`. -/
def convertServices (e : ServiceEntry) : List Service := e.services

/-- Conversion Boundary: `toInstances(rawRecord)`. -/
def convertInstances (e : ServiceEntry) : List ServiceInstance := e.instances

/-- Modelled from the spec: a stored configuration record (`model.Config`
is outside the provided source); the code reads its namespace and its
`ServiceEntry` payload. -/
structure Config where
  ns : String
  spec : ServiceEntry
deriving DecidableEq, Repr

/-- Modelled from the spec: the Source Store exposes an ordered enumeration
of current raw records (`store.ServiceEntries()`). -/
structure IstioConfigStore where
  serviceEntries : List Config
deriving DecidableEq, Repr

/-- Modelled from the spec: the event kind of a change notification. -/
inductive Event where
  | add
  | update
  | delete
deriving DecidableEq, Repr

/-- Modelled from the spec: value bound to key `k` in a label set, if any. -/
def labelValue (l : Labels) (k : String) : Option String :=
  match l with
  | [] => none
  | (k', v) :: rest => if k' = k then some v else labelValue rest k

/-- Modelled from the spec: label-subset match. `labels.HasSubsetOf(that)`
holds iff every key of the requested set `labels` is present in `that`
with an equal value; the empty requested set matches everything. -/
def hasSubsetOf (labels : Labels) (that : Labels) : Bool :=
  labels.all fun p => labelValue that p.1 == some p.2

/-- A Go `map[string][]*model.ServiceInstance`, as an association list with
unique keys. -/
abbrev InstMap := List (String × List ServiceInstance)

/-- Go map read: first binding of the key, if present. -/
def mapFind (m : InstMap) (k : String) : Option (List ServiceInstance) :=
  match m with
  | [] => none
  | (k', v) :: rest => if k' = k then some v else mapFind rest k

/-- Go map write: replace the binding of `k`, or add one. -/
def mapInsert (m : InstMap) (k : String) (v : List ServiceInstance) : InstMap :=
  match m with
  | [] => [(k, v)]
  | (k', v') :: rest => if k' = k then (k, v) :: rest else (k', v') :: mapInsert rest k v

/-- The mutable state of a `ServiceEntryStore`: the source store reference,
the two derived maps (`instances` keyed by hostname, `ip2instance` keyed by
endpoint address) and the staleness flag `updateNeeded`. -/
structure ServiceEntryStore where
  store : IstioConfigStore
  instances : InstMap
  ip2instance : InstMap
  updateNeeded : Bool
deriving DecidableEq, Repr

/-- `NewServiceDiscovery`: both derived maps start empty and the staleness
flag starts true. -/
def NewServiceDiscovery (store : IstioConfigStore) : ServiceEntryStore :=
  { store := store
    instances := []
    ip2instance := []
    updateNeeded := true }

/-- One iteration of the inner rebuild loop of `update` for a single
converted instance: append to `instances[hostname]`; then, exactly as the
source is written, read `instances[endpoint.Address]` (not `ip2instance`)
to obtain the list that is appended to and stored in
`ip2instance[endpoint.Address]`. -/
def updateStep (m : InstMap × InstMap) (inst : ServiceInstance) : InstMap × InstMap :=
  let key := inst.service.hostname
  let out := (mapFind m.1 key).getD []
  let instances1 := mapInsert m.1 key (out ++ [inst])
  let byip := (mapFind instances1 inst.endpoint.address).getD []
  let ip2 := mapInsert m.2 inst.endpoint.address (byip ++ [inst])
  (instances1, ip2)

/-- The rebuild loops of `update`: iterate all service entries and all of
their converted instances, populating both maps from empty. -/
def updateMaps (cfgs : List Config) : InstMap × InstMap :=
  cfgs.foldl (fun m config => (convertInstances config.spec).foldl updateStep m) ([], [])

/-- `update`: if `updateNeeded` is false, return at once; otherwise reset
both maps and rebuild them from the store. As in the source, `updateNeeded`
is never set to false. -/
def ServiceEntryStore.update (d : ServiceEntryStore) : ServiceEntryStore :=
  if !d.updateNeeded then d
  else
    let m := updateMaps d.store.serviceEntries
    { d with instances := m.1, ip2instance := m.2 }

/-- `portMatchEnvoyV1`: true if the port-name set is empty or contains the
instance's service-port name. -/
def portMatchEnvoyV1 (inst : ServiceInstance) (portMap : List String) : Bool :=
  portMap.isEmpty || portMap.contains inst.endpoint.servicePort.name

/-- `portMatchSingle`: true if the requested port is 0 or equals the
instance's service-port number. -/
def portMatchSingle (inst : ServiceInstance) (port : Int) : Bool :=
  port == 0 || port == inst.endpoint.servicePort.port

/-- `Services`: convert every service entry of the store, concatenating in
enumeration order; the error is always nil and the state is untouched. -/
def ServiceEntryStore.Services (d : ServiceEntryStore) :
    (List Service × Option String) × ServiceEntryStore :=
  ((d.store.serviceEntries.foldl (fun acc config => acc ++ convertServices config.spec) [],
    none), d)

/-- `getServices`: the same conversion loop, used by `GetService`. -/
def ServiceEntryStore.getServices (d : ServiceEntryStore) : List Service :=
  d.store.serviceEntries.foldl (fun acc config => acc ++ convertServices config.spec) []

/-- `GetService`: first converted service with the requested hostname, or
nil with a nil error. -/
def ServiceEntryStore.GetService (d : ServiceEntryStore) (hostname : String) :
    Option Service × Option String :=
  (d.getServices.find? (fun s => s.hostname == hostname), none)

/-- The loop of `GetServiceAttributes` over the store's service entries:
the first entry converting to a service with the requested hostname yields
attributes (hostname, entry namespace); otherwise the error
"service not found". -/
def getServiceAttributesLoop (hostname : String) :
    List Config → Except String ServiceAttributes
  | [] => Except.error "service not found"
  | config :: rest =>
    if (convertServices config.spec).any (fun s => s.hostname == hostname) then
      Except.ok { name := hostname, ns := config.ns }
    else getServiceAttributesLoop hostname rest

/-- `GetServiceAttributes`. -/
def ServiceEntryStore.GetServiceAttributes (d : ServiceEntryStore) (hostname : String) :
    Except String ServiceAttributes :=
  getServiceAttributesLoop hostname d.store.serviceEntries

/-- `Instances`: scan every service entry of the store directly (never the
cached maps), keeping converted instances that match hostname, labels and
port-name set; nil error. -/
def ServiceEntryStore.Instances (d : ServiceEntryStore) (hostname : String)
    (ports : List String) (labels : Labels) : List ServiceInstance × Option String :=
  (d.store.serviceEntries.foldl
    (fun out config =>
      out ++ (convertInstances config.spec).filter (fun inst =>
        inst.service.hostname == hostname && hasSubsetOf labels inst.labels &&
          portMatchEnvoyV1 inst ports))
    [], none)

/-- The lookup-and-filter of `InstancesByPort` against a by-hostname map. -/
def lookupByPort (m : InstMap) (hostname : String) (port : Int) (labels : Labels) :
    List ServiceInstance :=
  match mapFind m hostname with
  | none => []
  | some insts =>
    insts.filter fun inst =>
      inst.service.hostname == hostname && hasSubsetOf labels inst.labels &&
        portMatchSingle inst port

/-- `InstancesByPort`: run `update`, then look up `instances[hostname]` and
filter by hostname, labels and exact port (0 matches all); nil error. -/
def ServiceEntryStore.InstancesByPort (d : ServiceEntryStore) (hostname : String)
    (port : Int) (labels : Labels) :
    (List ServiceInstance × Option String) × ServiceEntryStore :=
  let d1 := d.update
  ((lookupByPort d1.instances hostname port labels, none), d1)

/-- `GetProxyServiceInstances`: run `update`, then return
`ip2instance[address]` if present, else the empty list; nil error in both
branches. -/
def ServiceEntryStore.GetProxyServiceInstances (d : ServiceEntryStore) (ipAddress : String) :
    (List ServiceInstance × Option String) × ServiceEntryStore :=
  let d1 := d.update
  match mapFind d1.ip2instance ipAddress with
  | some insts => ((insts, none), d1)
  | none => (([], none), d1)

/-- The invocations spawned by one nested dispatch loop of the change
callback: for each registered handler (by index), for each produced entity,
one invocation of (handler, entity, event). -/
def dispatchCalls {α : Type} (numHandlers : Nat) (entities : List α) (ev : Event) :
    List (Nat × α × Event) :=
  (List.range numHandlers).foldl (fun acc h => acc ++ entities.map (fun s => (h, s, ev))) []

/-- The set of handler invocations spawned by one change notification. -/
structure Dispatch where
  serviceCalls : List (Nat × Service × Event)
  instanceCalls : List (Nat × ServiceInstance × Event)
deriving DecidableEq, Repr

/-- The event handler registered by `NewServiceDiscovery`: mark the index
stale, then spawn one handler invocation per registered service handler per
converted service, and per registered instance handler per converted
instance, each with the event kind. Handlers are identified by their index
in the registration lists. -/
def onSourceChange (d : ServiceEntryStore) (numServiceHandlers numInstanceHandlers : Nat)
    (config : Config) (event : Event) : ServiceEntryStore × Dispatch :=
  let d1 := { d with updateNeeded := true }
  (d1,
   { serviceCalls := dispatchCalls numServiceHandlers (convertServices config.spec) event
     instanceCalls := dispatchCalls numInstanceHandlers (convertInstances config.spec) event })

/-- An operation on the store's read/write lock, or a read of the staleness
flag, as performed by `update`. -/
inductive LockOp where
  | rlock
  | runlock
  | wlock
  | wunlock
  | checkFlag
deriving DecidableEq, Repr

/-- The exact sequence of lock operations and flag reads that `update`
performs, as written in the source: `RLock`, read `updateNeeded`; when the
flag is false, return (no further operation); when it is true, `RUnlock`,
`Lock`, rebuild, and the deferred `Unlock` — with no second read of the
flag. -/
def updateLockTrace (updateNeeded : Bool) : List LockOp :=
  if !updateNeeded then [LockOp.rlock, LockOp.checkFlag]
  else [LockOp.rlock, LockOp.checkFlag, LockOp.runlock, LockOp.wlock, LockOp.wunlock]

/-- Number of shared (reader) acquisitions still held after a trace. -/
def readersHeld (t : List LockOp) : Int :=
  t.foldl
    (fun n op =>
      match op with
      | LockOp.rlock => n + 1
      | LockOp.runlock => n - 1
      | _ => n)
    0

/-- Whether a trace reads the staleness flag at some point after acquiring
the exclusive (writer) lock. -/
def checkedAfterWlock : List LockOp → Bool
  | [] => false
  | LockOp.wlock :: rest => rest.contains LockOp.checkFlag || checkedAfterWlock rest
  | _ :: rest => checkedAfterWlock rest

/-- Spec-side re-derivation: the concatenation, in source enumeration
order, of the services converted from each raw record. -/
def allServices : List Config → List Service
  | [] => []
  | config :: rest => convertServices config.spec ++ allServices rest

/-- Spec-side re-derivation: the concatenation, in source enumeration
order, of the instances converted from each raw record. -/
def allInstances : List Config → List ServiceInstance
  | [] => []
  | config :: rest => convertInstances config.spec ++ allInstances rest

theorem mapFind_insert_self : ∀ (m : InstMap) (k : String) (v : List ServiceInstance),
    mapFind (mapInsert m k v) k = some v
  | [], k, v => by simp [mapInsert, mapFind]
  | (k', v') :: rest, k, v => by
    by_cases h : k' = k
    · simp [mapInsert, mapFind, h]
    · simp [mapInsert, mapFind, h, mapFind_insert_self rest k v]

theorem mapFind_insert_ne : ∀ (m : InstMap) (k k' : String) (v : List ServiceInstance),
    k' ≠ k → mapFind (mapInsert m k v) k' = mapFind m k'
  | [], k, k', v, hne => by
    simp [mapInsert, mapFind, Ne.symm hne]
  | (a, b) :: rest, k, k', v, hne => by
    by_cases h : a = k
    · subst h
      simp [mapInsert, mapFind, Ne.symm hne]
    · by_cases h' : a = k'
      · subst h'
        simp [mapInsert, mapFind, h]
      · simp [mapInsert, mapFind, h, h', mapFind_insert_ne rest k k' v hne]

theorem foldl_services_eq : ∀ (cfgs : List Config) (acc : List Service),
    cfgs.foldl (fun a c => a ++ convertServices c.spec) acc = acc ++ allServices cfgs
  | [], acc => by simp [allServices]
  | c :: rest, acc => by
    simp [allServices, foldl_services_eq rest (acc ++ convertServices c.spec)]

theorem foldl_instances_eq : ∀ (cfgs : List Config) (acc : List ServiceInstance),
    cfgs.foldl (fun a c => a ++ convertInstances c.spec) acc = acc ++ allInstances cfgs
  | [], acc => by simp [allInstances]
  | c :: rest, acc => by
    simp [allInstances, foldl_instances_eq rest (acc ++ convertInstances c.spec)]

theorem foldl_filter_instances_eq (p : ServiceInstance → Bool) :
    ∀ (cfgs : List Config) (acc : List ServiceInstance),
      cfgs.foldl (fun a c => a ++ (convertInstances c.spec).filter p) acc
        = acc ++ (allInstances cfgs).filter p
  | [], acc => by simp [allInstances]
  | c :: rest, acc => by
    simp [allInstances, List.filter_append,
      foldl_filter_instances_eq p rest (acc ++ (convertInstances c.spec).filter p)]

theorem updateMaps_flat : ∀ (cfgs : List Config) (m : InstMap × InstMap),
    cfgs.foldl (fun m config => (convertInstances config.spec).foldl updateStep m) m
      = (allInstances cfgs).foldl updateStep m
  | [], _ => rfl
  | c :: rest, m => by
    simp [allInstances, List.foldl_append,
      updateMaps_flat rest ((convertInstances c.spec).foldl updateStep m)]

theorem instMap_lookup : ∀ (l : List ServiceInstance) (m : InstMap × InstMap) (hn : String),
    (mapFind (l.foldl updateStep m).1 hn).getD []
      = (mapFind m.1 hn).getD [] ++ l.filter (fun i => i.service.hostname == hn)
  | [], m, hn => by simp
  | inst :: rest, m, hn => by
    rw [List.foldl_cons, instMap_lookup rest (updateStep m inst) hn]
    by_cases h : inst.service.hostname = hn
    · have h1 : (updateStep m inst).1
          = mapInsert m.1 hn (((mapFind m.1 hn).getD []) ++ [inst]) := by
        simp [updateStep, h]
      rw [h1, mapFind_insert_self]
      simp [List.filter_cons, h]
    · have h1 : mapFind (updateStep m inst).1 hn = mapFind m.1 hn := by
        simp only [updateStep]
        exact mapFind_insert_ne m.1 inst.service.hostname hn _ (fun he => h he.symm)
      rw [h1]
      simp [List.filter_cons, h]

theorem ip2_lookup_of_not_mem :
    ∀ (l : List ServiceInstance) (m : InstMap × InstMap) (a : String),
      (∀ i ∈ l, i.endpoint.address ≠ a) →
        mapFind (l.foldl updateStep m).2 a = mapFind m.2 a
  | [], _, _, _ => rfl
  | inst :: rest, m, a, h => by
    rw [List.foldl_cons,
      ip2_lookup_of_not_mem rest (updateStep m inst) a
        (fun i hi => h i (List.mem_cons_of_mem _ hi))]
    simp only [updateStep]
    exact mapFind_insert_ne m.2 _ a _ (h inst (List.mem_cons_self _ _)).symm

theorem lookupByPort_eq_getD (m : InstMap) (hn : String) (port : Int) (labels : Labels) :
    lookupByPort m hn port labels
      = ((mapFind m hn).getD []).filter (fun inst =>
          inst.service.hostname == hn && hasSubsetOf labels inst.labels &&
            portMatchSingle inst port) := by
  cases h : mapFind m hn <;> simp [lookupByPort, h]

/-- A concrete instance of `a.example` at endpoint address 10.0.0.1. -/
def instA : ServiceInstance :=
  { endpoint :=
      { address := "10.0.0.1", port := 8080, servicePort := { name := "http", port := 8080 } }
    service := { hostname := "a.example" }
    labels := [("env", "prod")] }

/-- A concrete instance of `b.example` sharing endpoint address 10.0.0.1. -/
def instB : ServiceInstance :=
  { endpoint :=
      { address := "10.0.0.1", port := 9090, servicePort := { name := "grpc", port := 9090 } }
    service := { hostname := "b.example" }
    labels := [] }

/-- A service entry record converting to service `a.example` with `instA`. -/
def cfgA : Config :=
  { ns := "default"
    spec := { services := [{ hostname := "a.example" }], instances := [instA] } }

/-- A service entry record converting to service `b.example` with `instB`. -/
def cfgB : Config :=
  { ns := "default"
    spec := { services := [{ hostname := "b.example" }], instances := [instB] } }

/-- A source store holding the two records above. -/
def storeAB : IstioConfigStore := { serviceEntries := [cfgA, cfgB] }

/-- C1: refuted on the code. The rebuild's by-address step looks the running
list up in the by-hostname map `instances` instead of `ip2instance`, so when
two instances share the address 10.0.0.1 the lookup misses the earlier write
and `ip2instance["10.0.0.1"]` ends up holding only the last instance, while
a full re-derivation from the source yields both. -/
theorem ip2instance_drops_shared_address :
    ((NewServiceDiscovery storeAB).GetProxyServiceInstances "10.0.0.1").1.1 = [instB]
    ∧ (allInstances storeAB.serviceEntries).filter
        (fun i => i.endpoint.address == "10.0.0.1") = [instA, instB] := by
  constructor <;> rfl

/-- C2: refuted on the code. `update` never sets `updateNeeded` to false:
after a cache-backed query completes with no intervening change
notification, the flag is still true, and in general `update` leaves the
flag exactly as it found it, so every query rebuilds. -/
theorem updateNeeded_never_cleared :
    ((NewServiceDiscovery storeAB).InstancesByPort "a.example" 0 []).2.updateNeeded = true
    ∧ ∀ d : ServiceEntryStore, d.update.updateNeeded = d.updateNeeded := by
  constructor
  · rfl
  · intro d
    by_cases h : d.updateNeeded <;> simp [ServiceEntryStore.update, h]

/-- C3: refuted on the code. On the not-stale branch `update` returns still
holding one shared (reader) acquisition (the `RUnlock` is skipped), and on
the stale branch it never re-reads the staleness flag after acquiring the
exclusive lock; the claim requires zero held readers on return and a
re-check after the exclusive acquisition. -/
theorem update_lock_discipline_violation :
    readersHeld (updateLockTrace false) = 1
    ∧ checkedAfterWlock (updateLockTrace true) = false
    ∧ readersHeld (updateLockTrace true) = 0 :=
  ⟨rfl, rfl, rfl⟩

theorem update_instances_of_stale (d : ServiceEntryStore) (hd : d.updateNeeded = true) :
    d.update.instances = (updateMaps d.store.serviceEntries).1 := by
  simp [ServiceEntryStore.update, hd]

theorem update_ip2instance_of_stale (d : ServiceEntryStore) (hd : d.updateNeeded = true) :
    d.update.ip2instance = (updateMaps d.store.serviceEntries).2 := by
  simp [ServiceEntryStore.update, hd]

theorem updateMaps_instances_lookup (cfgs : List Config) (hn : String) :
    (mapFind (updateMaps cfgs).1 hn).getD []
      = (allInstances cfgs).filter (fun i => i.service.hostname == hn) := by
  rw [updateMaps, updateMaps_flat]
  simpa using instMap_lookup (allInstances cfgs) ([], []) hn

/-- C5: with port 0 and an empty requested label set, `InstancesByPort`
returns exactly the indexed instances of the hostname, and with a nonzero
port every returned instance's service-port number equals the requested
port. -/
theorem instancesByPort_wildcard (d : ServiceEntryStore) (hd : d.updateNeeded = true)
    (hn : String) :
    (d.InstancesByPort hn 0 []).1.1
        = (allInstances d.store.serviceEntries).filter (fun i => i.service.hostname == hn)
    ∧ ∀ (p : Int) (labels : Labels) (i : ServiceInstance), p ≠ 0 →
        i ∈ (d.InstancesByPort hn p labels).1.1 → i.endpoint.servicePort.port = p := by
  constructor
  · show lookupByPort d.update.instances hn 0 [] = _
    rw [update_instances_of_stale d hd, lookupByPort_eq_getD,
      updateMaps_instances_lookup]
    refine List.filter_eq_self.mpr ?_
    intro i hi
    rw [List.mem_filter] at hi
    simp [hi.2, hasSubsetOf, portMatchSingle]
  · intro p labels i hp hi
    replace hi : i ∈ lookupByPort d.update.instances hn p labels := hi
    rw [lookupByPort_eq_getD, List.mem_filter] at hi
    have := hi.2
    simp only [Bool.and_eq_true, portMatchSingle, Bool.or_eq_true, beq_iff_eq] at this
    rcases this.2 with h0 | hport
    · exact absurd h0 hp
    · exact hport.symm

/-- C5 witness at a concrete store, hostname and nonzero port. -/
theorem instancesByPort_wildcard_witness :
    (NewServiceDiscovery storeAB).updateNeeded = true
    ∧ ((NewServiceDiscovery storeAB).InstancesByPort "a.example" 0 []).1.1 = [instA] :=
  ⟨rfl, by
    have h := (instancesByPort_wildcard (NewServiceDiscovery storeAB) rfl "a.example").1
    rw [h]
    rfl⟩

theorem getServiceAttributesLoop_not_found (hn : String) :
    ∀ cfgs : List Config, (∀ s ∈ allServices cfgs, s.hostname ≠ hn) →
      getServiceAttributesLoop hn cfgs = Except.error "service not found"
  | [], _ => rfl
  | c :: rest, h => by
    have hany : (convertServices c.spec).any (fun s => s.hostname == hn) = false := by
      simp only [List.any_eq_false]
      intro s hs
      simpa using h s (by simp [allServices, hs])
    simp [getServiceAttributesLoop, hany,
      getServiceAttributesLoop_not_found hn rest
        (fun s hs => h s (by simp [allServices, hs]))]

/-- C6: on a hostname no derived service carries, `GetService` answers nil
service with nil error, while `GetServiceAttributes` answers the
"service not found" error. -/
theorem getService_getAttributes_unknown (d : ServiceEntryStore) (hn : String)
    (h : ∀ s ∈ allServices d.store.serviceEntries, s.hostname ≠ hn) :
    d.GetService hn = (none, none)
    ∧ d.GetServiceAttributes hn = Except.error "service not found" := by
  constructor
  · have hgs : d.getServices = allServices d.store.serviceEntries := by
      simpa using foldl_services_eq d.store.serviceEntries []
    have hfind : d.getServices.find? (fun s => s.hostname == hn) = none := by
      rw [hgs, List.find?_eq_none]
      intro s hs
      simpa using h s hs
    simp [ServiceEntryStore.GetService, hfind]
  · exact getServiceAttributesLoop_not_found hn d.store.serviceEntries h

/-- C6 witness at a concrete store and unknown hostname. -/
theorem getService_getAttributes_unknown_witness :
    (NewServiceDiscovery storeAB).GetService "zzz.example" = (none, none)
    ∧ (NewServiceDiscovery storeAB).GetServiceAttributes "zzz.example"
        = Except.error "service not found" :=
  getService_getAttributes_unknown (NewServiceDiscovery storeAB) "zzz.example" (by decide)

/-- C7: for an address carried by no converted instance, the by-address
query answers the empty list with nil error, and in general its error
component is nil for every state and address. -/
theorem getProxyServiceInstances_empty (d : ServiceEntryStore) (a : String)
    (hd : d.updateNeeded = true)
    (h : ∀ i ∈ allInstances d.store.serviceEntries, i.endpoint.address ≠ a) :
    (d.GetProxyServiceInstances a).1 = ([], none)
    ∧ ∀ (d' : ServiceEntryStore) (a' : String),
        (d'.GetProxyServiceInstances a').1.2 = none := by
  constructor
  · have hfind : mapFind d.update.ip2instance a = none := by
      rw [update_ip2instance_of_stale d hd, updateMaps, updateMaps_flat,
        ip2_lookup_of_not_mem (allInstances d.store.serviceEntries) ([], []) a h]
      rfl
    simp [ServiceEntryStore.GetProxyServiceInstances, hfind]
  · intro d' a'
    cases hf : mapFind d'.update.ip2instance a' <;>
      simp [ServiceEntryStore.GetProxyServiceInstances, hf]

/-- C7 witness at a concrete store and unindexed address. -/
theorem getProxyServiceInstances_empty_witness :
    ((NewServiceDiscovery storeAB).GetProxyServiceInstances "9.9.9.9").1 = ([], none) :=
  (getProxyServiceInstances_empty (NewServiceDiscovery storeAB) "9.9.9.9" rfl (by decide)).1

theorem dispatchCalls_succ {α : Type} (n : Nat) (entities : List α) (ev : Event) :
    dispatchCalls (n + 1) entities ev
      = dispatchCalls n entities ev ++ entities.map (fun s => (n, s, ev)) := by
  simp [dispatchCalls, List.range_succ]

theorem count_map_entity {α : Type} [DecidableEq α] (k : Nat) (entities : List α)
    (ev : Event) (h : Nat) (x : α) (e : Event) :
    (entities.map (fun s => (k, s, ev))).count (h, x, e)
      = if k = h ∧ ev = e then entities.count x else 0 := by
  induction entities with
  | nil => simp
  | cons a l ih =>
    rw [List.map_cons, List.count_cons, ih, List.count_cons]
    by_cases hk : k = h <;> by_cases he : ev = e <;> by_cases ha : a = x <;>
      simp [hk, he, ha, Prod.ext_iff]

theorem count_dispatchCalls {α : Type} [DecidableEq α] (n : Nat) (entities : List α)
    (ev : Event) (h : Nat) (x : α) (e : Event) :
    (dispatchCalls n entities ev).count (h, x, e)
      = if h < n ∧ e = ev then entities.count x else 0 := by
  induction n with
  | zero => simp [dispatchCalls]
  | succ n ih =>
    rw [dispatchCalls_succ, List.count_append, ih, count_map_entity]
    by_cases h2 : e = ev
    · subst h2
      by_cases h1 : h < n
      · have hne : n ≠ h := by omega
        have hlt : h < n + 1 := by omega
        simp [h1, hne, hlt]
      · by_cases h3 : n = h
        · subst h3
          simp [h1, Nat.lt_succ_self]
        · have hnlt : ¬h < n + 1 := by omega
          simp [h1, h3, hnlt]
    · have h2' : ¬ev = e := fun hh => h2 hh.symm
      simp [h2, h2']

/-- C4: the change handler sets the staleness flag to true, and for every
handler index and entity the dispatched invocation list contains the triple
(handler, entity, event kind) exactly once per occurrence of the entity in
the record's conversion output — registered service handlers over converted
services, registered instance handlers over converted instances, and
nothing else. -/
theorem onSourceChange_dispatch (d : ServiceEntryStore) (n m : Nat) (config : Config)
    (ev : Event) :
    (onSourceChange d n m config ev).1.updateNeeded = true
    ∧ (∀ (h : Nat) (s : Service) (e : Event),
        (onSourceChange d n m config ev).2.serviceCalls.count (h, s, e)
          = if h < n ∧ e = ev then (convertServices config.spec).count s else 0)
    ∧ (∀ (h : Nat) (i : ServiceInstance) (e : Event),
        (onSourceChange d n m config ev).2.instanceCalls.count (h, i, e)
          = if h < m ∧ e = ev then (convertInstances config.spec).count i else 0) :=
  ⟨rfl,
   fun h s e => count_dispatchCalls n (convertServices config.spec) ev h s e,
   fun h i e => count_dispatchCalls m (convertInstances config.spec) ev h i e⟩

/-- C8: `Instances` includes an instance exactly when it occurs in the
conversion of the current source enumeration with the requested hostname,
with a service-port name in the requested set (an empty set matching every
port), and with every requested label key bound to an equal value in the
instance's labels (an empty label set matching every instance); and its
result is computed from the source enumeration alone, independent of the
two cached maps and the staleness flag. -/
theorem instances_scan_spec (d : ServiceEntryStore) (hn : String) (ports : List String)
    (labels : Labels) :
    (∀ i : ServiceInstance,
        i ∈ (d.Instances hn ports labels).1 ↔
          i ∈ allInstances d.store.serviceEntries ∧ i.service.hostname = hn
            ∧ (ports = [] ∨ i.endpoint.servicePort.name ∈ ports)
            ∧ ∀ kv ∈ labels, labelValue i.labels kv.1 = some kv.2)
    ∧ ∀ (m1 m2 m1' m2' : InstMap) (b b' : Bool),
        (ServiceEntryStore.mk d.store m1 m2 b).Instances hn ports labels
          = (ServiceEntryStore.mk d.store m1' m2' b').Instances hn ports labels := by
  constructor
  · intro i
    have hflat : (d.Instances hn ports labels).1
        = (allInstances d.store.serviceEntries).filter (fun inst =>
            inst.service.hostname == hn && hasSubsetOf labels inst.labels &&
              portMatchEnvoyV1 inst ports) := by
      simpa [ServiceEntryStore.Instances] using
        foldl_filter_instances_eq _ d.store.serviceEntries []
    rw [hflat, List.mem_filter]
    simp only [Bool.and_eq_true, beq_iff_eq, hasSubsetOf, List.all_eq_true,
      portMatchEnvoyV1, Bool.or_eq_true, List.isEmpty_iff, Prod.forall,
      List.contains_eq_any_beq, List.any_eq_true]
    constructor
    · rintro ⟨hmem, ⟨hhost, hlab⟩, hport⟩
      refine ⟨hmem, hhost, ?_, ?_⟩
      · rcases hport with hp | ⟨nm, hnm, hbeq⟩
        · exact Or.inl hp
        · exact Or.inr (by rw [hbeq]; exact hnm)
      · intro kv hkv
        simpa using hlab kv hkv
    · rintro ⟨hmem, hhost, hport, hlab⟩
      refine ⟨hmem, ⟨hhost, ?_⟩, ?_⟩
      · intro kv hkv
        simpa using hlab kv hkv
      · rcases hport with hp | hnm
        · exact Or.inl hp
        · exact Or.inr ⟨_, hnm, by simp⟩
  · intro m1 m2 m1' m2' b b'
    rfl

/-- C9: `Services` answers the concatenation, in source enumeration order,
of the conversion of every raw record, with nil error, leaves the whole
state (both maps and the staleness flag) unchanged, and its answer does not
depend on the cached maps or the flag. -/
theorem services_rederives (d : ServiceEntryStore) :
    d.Services = ((allServices d.store.serviceEntries, none), d)
    ∧ ∀ (m1 m2 m1' m2' : InstMap) (b b' : Bool),
        (ServiceEntryStore.mk d.store m1 m2 b).Services.1
          = (ServiceEntryStore.mk d.store m1' m2' b').Services.1 := by
  constructor
  · simp [ServiceEntryStore.Services, foldl_services_eq]
  · intro m1 m2 m1' m2' b b'
    rfl

/-- C10: a freshly constructed store has the staleness flag true and both
derived maps empty, and a first cache-backed query (`InstancesByPort` or
`GetProxyServiceInstances`) first rebuilds both maps from the source
enumeration and answers from the rebuilt by-hostname (resp. by-address)
map, not from the empty initial maps. -/
theorem fresh_store_rebuilds (st : IstioConfigStore) :
    (NewServiceDiscovery st).updateNeeded = true
    ∧ (NewServiceDiscovery st).instances = []
    ∧ (NewServiceDiscovery st).ip2instance = []
    ∧ (∀ (hn : String) (p : Int) (labels : Labels),
        ((NewServiceDiscovery st).InstancesByPort hn p labels).2.instances
            = (updateMaps st.serviceEntries).1
          ∧ ((NewServiceDiscovery st).InstancesByPort hn p labels).1.1
            = lookupByPort (updateMaps st.serviceEntries).1 hn p labels)
    ∧ ∀ a : String,
        ((NewServiceDiscovery st).GetProxyServiceInstances a).2.ip2instance
            = (updateMaps st.serviceEntries).2
          ∧ ((NewServiceDiscovery st).GetProxyServiceInstances a).1.1
            = (mapFind (updateMaps st.serviceEntries).2 a).getD [] := by
  refine ⟨rfl, rfl, rfl, ?_, ?_⟩
  · intro hn p labels
    exact ⟨rfl, rfl⟩
  · intro a
    cases hf : mapFind (updateMaps st.serviceEntries).2 a <;>
      simp [ServiceEntryStore.GetProxyServiceInstances, ServiceEntryStore.update,
        NewServiceDiscovery, hf]

end IstioSE
